import Mathlib

/-!
Verification of the task-tracker core (`Task.py`): the `Task` record, the
`Tasks` store with its operations (`add`, `done`, `delete`, `list`,
`report`, `query`), the shared sort, and the display formatting.

Modelling conventions:
* Python `datetime.datetime` values are modelled by `PyDateTime`, carrying a
  date ordinal (`dateOrd`, what `.date()` projects to) and a time-of-day
  component; `datetime.now()` becomes an explicit `now` argument at each call.
* `datetime.date` values produced by `strptime(_, "%m/%d/%Y").date()` are
  modelled by `PyDate` (year/month/day); Python date comparison is
  chronological, i.e. lexicographic on (year, month, day).
* `strftime("%a %b %d %H:%M:%S %Z %Y")` is a library call; it is modelled by
  an arbitrary function argument `fmt : PyDateTime → String`.
* `strptime(due, "%m/%d/%Y")` is likewise modelled by an arbitrary function
  argument `parse : String → Option PyDate` (`none` = raises `ValueError`).
* The class-level counter `Task._id_counter` is threaded explicitly as the
  `counter` field of `TasksState`.
* Python's `sorted` is a stable comparison sort; it is modelled by Mathlib's
  stable `List.insertionSort` applied to the unfolded tuple-key comparison.
* Dynamically-typed identifier arguments (the `isinstance(task_id, int)`
  checks) are modelled by `PyVal`.
-/

namespace TaskTracker

/-- Model of a `datetime.date` value (year, month, day). -/
structure PyDate where
  year : Nat
  month : Nat
  day : Nat
deriving DecidableEq

/-- Model of a `datetime.datetime` instant: `dateOrd` is the day ordinal that
`.date()` projects to, `tod` the time of day within it. -/
structure PyDateTime where
  dateOrd : Nat
  tod : Nat
deriving DecidableEq

/-- Model of `class Task` (Task.py lines 17-65): `created`, `completed`,
`name`, `unique_id`, `priority`, `due_date`.  `priority` is a Python `int`,
modelled by `Int`; `unique_id` is allocated from the positive counter. -/
structure Task where
  created : PyDateTime
  completed : Option PyDateTime
  name : String
  unique_id : Nat
  priority : Int
  due_date : Option PyDate
deriving DecidableEq

/-- Model of `Task.__init__` (Task.py lines 31-38), with the class counter
`Task._id_counter` passed and returned explicitly: the new task takes the
current counter as `unique_id`, and the counter is incremented. -/
def Task.init (counter : Nat) (now : PyDateTime) (name : String)
    (priority : Int) (due : Option PyDate) : Task × Nat :=
  (⟨now, none, name, counter, priority, due⟩, counter + 1)

/-- Model of `Task.mark_complete` (Task.py lines 40-42): sets `completed` to
the current time, unconditionally overwriting any previous value. -/
def Task.mark_complete (t : Task) (now : PyDateTime) : Task :=
  ⟨t.created, some now, t.name, t.unique_id, t.priority, t.due_date⟩

/-- Model of `Task.set_id_counter` (Task.py lines 44-56): rejects values
below 1, otherwise returns the new counter value. -/
def Task.set_id_counter (value : Nat) : Except String Nat :=
  if value < 1 then .error "ID must be a positive integer" else .ok value

/-- A dynamically-typed Python value passed as a task identifier: either an
`int` or something that fails the `isinstance(task_id, int)` check. -/
inductive PyVal where
  | int (n : Int)
  | nonInt
deriving DecidableEq

/-- The state of a `Tasks` store: the `self.tasks` list plus the (explicitly
threaded) class counter `Task._id_counter`. -/
structure TasksState where
  tasks : List Task
  counter : Nat
deriving DecidableEq

/-- Model of Python `str.strip()` restricted to its whitespace behaviour:
drops whitespace from both ends. -/
def pyStrip (s : String) : String :=
  String.mk (((s.toList.dropWhile Char.isWhitespace).reverse.dropWhile
    Char.isWhitespace).reverse)

/-- Model of `Tasks._format_id` (Task.py lines 100-109): `f"{task_id:04d}"`,
zero-padding the (nonnegative) identifier to at least 4 digits. -/
def formatId (n : Nat) : String :=
  String.mk (List.replicate (4 - (toString n).length) '0') ++ toString n

/-- Left-aligned padding to width `w` with spaces, the effect of a Python
format spec `{x:<w}` (never truncates). -/
def padR (s : String) (w : Nat) : String :=
  s ++ String.mk (List.replicate (w - s.length) ' ')

/-- Chronological strict order on `PyDate`, i.e. Python `date` comparison:
lexicographic on (year, month, day). -/
def PyDate.ltb (a b : PyDate) : Bool :=
  decide (a.year < b.year ∨ (a.year = b.year ∧
    (a.month < b.month ∨ (a.month = b.month ∧ a.day < b.day))))

/-- The comparison induced by the sort key of `Tasks._sort_tasks`
(Task.py lines 111-132): the tuple
`( t.due_date is None, t.due_date, -t.priority )` compared
lexicographically.  Unfolded by cases on the two `due_date` options; the
first tuple component decides the mixed cases, equal dates (and the
`None`/`None` case) fall through to `-priority`, i.e. descending priority. -/
def keyLe (a b : Task) : Bool :=
  match a.due_date, b.due_date with
  | some d1, some d2 => if d1 = d2 then decide (b.priority ≤ a.priority)
      else PyDate.ltb d1 d2
  | some _, none => true
  | none, some _ => false
  | none, none => decide (b.priority ≤ a.priority)

/-- The sort relation of `Tasks._sort_tasks` as a proposition. -/
def sortRel (a b : Task) : Prop := keyLe a b = true

instance : DecidableRel sortRel := fun a b =>
  inferInstanceAs (Decidable (keyLe a b = true))

/-- Model of `Tasks._sort_tasks` (Task.py lines 111-132): Python's `sorted`
is a stable comparison sort, modelled by the stable `List.insertionSort`
applied to the key comparison `sortRel`. -/
def sortTasks (ts : List Task) : List Task :=
  List.insertionSort sortRel ts

/-- The sort order as the specification words it: tasks with a due-date
before tasks without one; among tasks with a due-date, ascending by
due-date; within any equal-due-date group (including the no-due-date group),
descending by priority. -/
def specLe (a b : Task) : Prop :=
  (a.due_date ≠ none ∧ b.due_date = none)
  ∨ (∃ da db, a.due_date = some da ∧ b.due_date = some db ∧
      PyDate.ltb da db = true)
  ∨ (a.due_date = b.due_date ∧ b.priority ≤ a.priority)

theorem keyLe_iff_specLe (a b : Task) : keyLe a b = true ↔ specLe a b := by
  unfold keyLe specLe
  rcases h1 : a.due_date with _ | d1 <;> rcases h2 : b.due_date with _ | d2 <;>
    simp [h1, h2]
  by_cases hd : d1 = d2 <;> simp [hd, PyDate.ltb]

instance : IsTotal Task sortRel := by
  constructor
  intro a b
  rcases a with ⟨_, _, _, _, pa, _ | ⟨y1, m1, e1⟩⟩ <;>
    rcases b with ⟨_, _, _, _, pb, _ | ⟨y2, m2, e2⟩⟩ <;>
    simp only [sortRel, keyLe, PyDate.ltb, PyDate.mk.injEq,
      decide_eq_true_eq]
  all_goals try split_ifs
  all_goals try trivial
  all_goals try omega
  all_goals try simp_all
  all_goals omega

instance : IsTrans Task sortRel := by
  constructor
  intro a b c hab hbc
  rcases a with ⟨_, _, _, _, pa, _ | ⟨y1, m1, e1⟩⟩ <;>
    rcases b with ⟨_, _, _, _, pb, _ | ⟨y2, m2, e2⟩⟩ <;>
    rcases c with ⟨_, _, _, _, pc, _ | ⟨y3, m3, e3⟩⟩ <;>
    simp only [sortRel, keyLe, PyDate.ltb, PyDate.mk.injEq,
      decide_eq_true_eq] at hab hbc ⊢
  all_goals try split_ifs at hab hbc ⊢
  all_goals try trivial
  all_goals try omega
  all_goals try simp_all
  all_goals omega

/-- Accumulator loop behind `pySplit`: `cur` holds the characters of the
word being read, in reverse. -/
def splitWSAux (cur : List Char) : List Char → List (List Char)
  | [] => if cur.isEmpty then [] else [cur.reverse]
  | c :: rest =>
    if c.isWhitespace then
      if cur.isEmpty then splitWSAux [] rest
      else cur.reverse :: splitWSAux [] rest
    else splitWSAux (c :: cur) rest

/-- Model of Python `str.split()` with no arguments, as used in
`Tasks.query` (Task.py line 244): split on runs of whitespace, discarding
empty pieces. -/
def pySplit (s : String) : List String :=
  (splitWSAux [] s.toList).map String.mk

/-- ASCII lower-casing of one character, modelling the case folding done by
`re.IGNORECASE` (Task.py line 250) on the ASCII names the program handles. -/
def pyLowerChar (c : Char) : Char :=
  if 'A' ≤ c ∧ c ≤ 'Z' then Char.ofNat (c.toNat + 32) else c

/-- Scan of `re.search` for a literal pattern: does `p` occur as a
contiguous run inside `l`?  Checks each suffix for `p` as a prefix. -/
def subSearch (p : List Char) : List Char → Bool
  | [] => p.isEmpty
  | c :: rest => p.isPrefixOf (c :: rest) || subSearch p rest

/-- Model of `re.search(re.escape(term), name, re.IGNORECASE)` being truthy
(Task.py line 250): `re.escape` makes the term a literal, so this is exactly
a case-insensitive substring test of `term` in `name`. -/
def ciMatch (term name : String) : Bool :=
  subSearch (term.toList.map pyLowerChar) (name.toList.map pyLowerChar)

/-- The task-selection part of `Tasks.query` (Task.py lines 244-252): filter
`self.tasks` to those with `completed is None`, then keep each task for
which the inner loop finds some whitespace-separated term occurring
case-insensitively in its name (the loop appends the task once and breaks,
which is exactly `List.any` over the terms). -/
def Tasks.querySelect (text : String) (ts : List Task) : List Task :=
  let terms := pySplit text
  let incomplete := ts.filter (fun t => t.completed.isNone)
  incomplete.filter (fun t => terms.any (fun term => ciMatch term t.name))

/-- The search loop of `Tasks.done` (Task.py lines 229-234): mark the first
task whose `unique_id` matches and stop; `none` when no task matches. -/
def markFirst (n : Int) (now : PyDateTime) : List Task → Option (List Task)
  | [] => none
  | t :: rest =>
    if (t.unique_id : Int) = n then some (t.mark_complete now :: rest)
    else (markFirst n now rest).map (t :: ·)

/-- The search loop of `Tasks.delete` (Task.py lines 209-214): remove the
first task whose `unique_id` matches, returning its identifier and the
remaining list; `none` when no task matches. -/
def deleteFirst (n : Int) : List Task → Option (Nat × List Task)
  | [] => none
  | t :: rest =>
    if (t.unique_id : Int) = n then some (t.unique_id, rest)
    else match deleteFirst n rest with
      | none => none
      | some (i, ts') => some (i, t :: ts')

/-- Model of `Tasks.done` (Task.py lines 217-235): rejects a non-integer
argument, marks the first matching task complete (printing the confirmation
line), or raises `ValueError` when no task matches.  The second component is
the task list after the call: unchanged whenever the call fails. -/
def Tasks.done (v : PyVal) (ts : List Task) (now : PyDateTime) :
    Except String String × List Task :=
  match v with
  | .nonInt => (.error "Task ID must be an integer", ts)
  | .int n =>
    match markFirst n now ts with
    | some ts' => (.ok ("Completed task " ++ formatId n.toNat), ts')
    | none => (.error ("Task ID " ++ toString n ++ " not found"), ts)

/-- Model of `Tasks.delete` (Task.py lines 197-215): rejects a non-integer
argument, removes the first matching task (printing the confirmation line),
or raises `ValueError` when no task matches. -/
def Tasks.delete (v : PyVal) (ts : List Task) :
    Except String String × List Task :=
  match v with
  | .nonInt => (.error "Task ID must be an integer", ts)
  | .int n =>
    match deleteFirst n ts with
    | some (i, ts') => (.ok ("Deleted task " ++ formatId i), ts')
    | none => (.error ("Task ID " ++ toString n ++ " not found"), ts)

/-- Model of `Tasks.add` (Task.py lines 258-288).  Validates the name
(non-empty after stripping), the priority (must be 1, 2 or 3) and the due
text (must parse), then constructs the task via `Task.init`, appends it and
prints the confirmation.  The `.ok` payload is
`(new state, task_id, return value, printed line)` where `task_id` is the
local variable of the source and the return value is that of the Python
function: the body has no `return` statement, so it is `none` (Python
`None`) — even though the docstring promises the new task's ID. -/
def Tasks.add (parse : String → Option PyDate) (s : TasksState)
    (now : PyDateTime) (name : String) (priority : Int) (due : Option String) :
    Except String (TasksState × Nat × Option Nat × String) :=
  if pyStrip name = "" then .error "Task name must be a non-empty string"
  else if ¬(priority = 1 ∨ priority = 2 ∨ priority = 3) then
    .error "Priority must be an integer value of 1, 2, or 3"
  else
    let parsedDue : Except String (Option PyDate) :=
      match due with
      | none => .ok none
      | some d =>
        match parse d with
        | some pd => .ok (some pd)
        | none => .error "Due date must be in format MM/DD/YYYY"
    match parsedDue with
    | .error e => .error e
    | .ok pd =>
      let p := Task.init s.counter now (pyStrip name) priority pd
      let taskId := p.1.unique_id
      .ok (⟨s.tasks ++ [p.1], p.2⟩, taskId, none,
        "Created Task " ++ formatId taskId)

/-- Python `max(task.unique_id for task in self.tasks)` over a non-empty
list of tasks with `Nat` identifiers (folded maximum). -/
def maxId (ts : List Task) : Nat :=
  ts.foldl (fun m t => max m t.unique_id) 0

/-- Model of the body of `Tasks._load_tasks` after a successful unpickle
(Task.py lines 82-85): install the loaded list as `self.tasks` and, when it
is non-empty, reset the class counter to `max_id + 1` via
`Task.set_id_counter`; `counter` is the counter value before the call. -/
def Tasks.loadTasks (counter : Nat) (loaded : List Task) :
    Except String TasksState :=
  if loaded.isEmpty then .ok ⟨loaded, counter⟩
  else
    match Task.set_id_counter (maxId loaded + 1) with
    | .ok c => .ok ⟨loaded, c⟩
    | .error e => .error e

/-- Zero-padding to width 2, the effect of `%m` and `%d` in
`strftime("%m/%d/%Y")`. -/
def pad2 (n : Nat) : String :=
  String.mk (List.replicate (2 - (toString n).length) '0') ++ toString n

/-- Zero-padding to width 4, the effect of `%Y` in `strftime("%m/%d/%Y")`. -/
def pad4 (n : Nat) : String :=
  String.mk (List.replicate (4 - (toString n).length) '0') ++ toString n

/-- The due-date column: `task.due_date.strftime("%m/%d/%Y") if
task.due_date else "-"` (Task.py lines 154 and 169). -/
def fmtDue : Option PyDate → String
  | some d => pad2 d.month ++ "/" ++ pad2 d.day ++ "/" ++ pad4 d.year
  | none => "-"

/-- The age column: `(datetime.now().date() - task.created.date()).days`
rendered as `f"{age}d"` (Task.py lines 152-153 and 167-168). -/
def ageStr (now : PyDateTime) (t : Task) : String :=
  toString ((now.dateOrd : Int) - (t.created.dateOrd : Int)) ++ "d"

/-- The name shown in the long (report) form (Task.py line 156):
`task.name[:17] + ".." if len(task.name) > 19 else task.name`. -/
def reportName (name : String) : String :=
  if name.length > 19 then name.take 17 ++ ".." else name

/-- One data row of the short (list/query) form (Task.py line 172); the name
is printed in full, never truncated. -/
def listRow (now : PyDateTime) (t : Task) : String :=
  padR (formatId t.unique_id) 5 ++ " " ++ padR (ageStr now t) 5 ++ " " ++
    padR (fmtDue t.due_date) 11 ++ " " ++ padR (toString t.priority) 10 ++
    " " ++ t.name

/-- One data row of the long (report) form (Task.py line 160); `fmt` stands
for `strftime("%a %b %d %H:%M:%S %Z %Y")`. -/
def reportRow (now : PyDateTime) (fmt : PyDateTime → String) (t : Task) :
    String :=
  padR (formatId t.unique_id) 5 ++ " " ++ padR (ageStr now t) 5 ++ " " ++
    padR (fmtDue t.due_date) 11 ++ " " ++ padR (toString t.priority) 10 ++
    " " ++ padR (reportName t.name) 20 ++ " " ++ padR (fmt t.created) 30 ++
    " " ++ (match t.completed with | some c => fmt c | none => "-")

/-- Header line of the short form (Task.py line 162). -/
def headerShort : String :=
  padR "ID" 5 ++ " " ++ padR "Age" 5 ++ " " ++ padR "Due Date" 11 ++ " " ++
    padR "Priority" 10 ++ " " ++ "Task"

/-- Header line of the long form (Task.py line 147). -/
def headerLong : String :=
  padR "ID" 5 ++ " " ++ padR "Age" 5 ++ " " ++ padR "Due Date" 11 ++ " " ++
    padR "Priority" 10 ++ " " ++ padR "Task" 20 ++ " " ++
    padR "Created" 30 ++ " " ++ "Completed"

/-- Model of `Tasks._display_tasks` (Task.py lines 134-172), as the list of
printed lines: the generic empty message for an empty input, otherwise a
header, a separator and one row per task in the given order. -/
def displayTasks (now : PyDateTime) (fmt : PyDateTime → String)
    (tasks : List Task) (report : Bool) : List String :=
  if tasks.isEmpty then ["No tasks found."]
  else if report then
    headerLong :: String.mk (List.replicate 120 '-') ::
      tasks.map (reportRow now fmt)
  else
    headerShort :: String.mk (List.replicate 70 '-') ::
      tasks.map (listRow now)

/-- Model of `Tasks.list` (Task.py lines 174-182), as the printed lines:
filter to incomplete tasks, print the distinct empty message when none
remain, otherwise sort and render the short form. -/
def Tasks.list (now : PyDateTime) (fmt : PyDateTime → String)
    (ts : List Task) : List String :=
  let incomplete := ts.filter (fun t => t.completed.isNone)
  if incomplete.isEmpty then ["No incomplete tasks."]
  else displayTasks now fmt (sortTasks incomplete) false

/-- Model of `Tasks.report` (Task.py lines 184-195), as the printed lines:
the generic empty message on an empty store, otherwise all tasks sorted and
rendered in the long form. -/
def Tasks.report (now : PyDateTime) (fmt : PyDateTime → String)
    (ts : List Task) : List String :=
  if ts.isEmpty then ["No tasks found."]
  else displayTasks now fmt (sortTasks ts) true

/-- Model of `Tasks.query` (Task.py lines 237-256), as the printed lines:
select matching incomplete tasks, sort them and render the short form
(via `_display_tasks`, so an empty selection prints the generic message). -/
def Tasks.queryOut (now : PyDateTime) (fmt : PyDateTime → String)
    (text : String) (ts : List Task) : List String :=
  displayTasks now fmt (sortTasks (Tasks.querySelect text ts)) false

/-- One CLI-level store operation, with the `datetime.now()` of mutating
calls made explicit.  `done` and `delete` carry the `int` the CLI parses
(`--done`/`--delete` have `type=int`). -/
inductive Op where
  | add (now : PyDateTime) (name : String) (priority : Int)
      (due : Option String)
  | done (now : PyDateTime) (id : Int)
  | delete (id : Int)
  | list
  | report
  | query (text : String)

/-- The identifier-relevant event an operation produces: an identifier
assigned by a successful `add`, an identifier removed by a successful
`delete`, or nothing. -/
inductive Event where
  | assigned (id : Nat)
  | deleted (id : Nat)
  | noEvent
deriving DecidableEq

/-- One step of the store: apply an operation to a state, yielding the next
state and the identifier event.  Failed operations (Python `ValueError`)
leave the state unchanged; `list`, `report` and `query` never mutate. -/
def step (parse : String → Option PyDate) (s : TasksState) :
    Op → TasksState × Event
  | .add now name priority due =>
    match Tasks.add parse s now name priority due with
    | .ok (s', taskId, _, _) => (s', .assigned taskId)
    | .error _ => (s, .noEvent)
  | .done now id =>
    match markFirst id now s.tasks with
    | some ts' => (⟨ts', s.counter⟩, .noEvent)
    | none => (s, .noEvent)
  | .delete id =>
    match deleteFirst id s.tasks with
    | some (i, ts') => (⟨ts', s.counter⟩, .deleted i)
    | none => (s, .noEvent)
  | .list => (s, .noEvent)
  | .report => (s, .noEvent)
  | .query _ => (s, .noEvent)

/-- The event trace of a sequence of operations run from a state. -/
def runTrace (parse : String → Option PyDate) (s : TasksState) :
    List Op → List Event
  | [] => []
  | op :: ops =>
    (step parse s op).2 :: runTrace parse (step parse s op).1 ops

/-- The store's identifier invariant: every task of the collection has an
identifier below the counter. -/
def IdInv (s : TasksState) : Prop :=
  ∀ t ∈ s.tasks, t.unique_id < s.counter

instance (s : TasksState) : Decidable (IdInv s) :=
  inferInstanceAs (Decidable (∀ t ∈ s.tasks, t.unique_id < s.counter))

/-- Ordering constraint between two identifier events in trace order: a
later assigned identifier is strictly above any earlier assigned identifier
(so assignments are strictly increasing and pairwise distinct) and strictly
above any earlier deleted identifier (so a deleted identifier is never
assigned again). -/
def C1Rel : Event → Event → Prop
  | .assigned a, .assigned b => a < b
  | .deleted d, .assigned b => d < b
  | _, _ => True

instance : ∀ e1 e2, Decidable (C1Rel e1 e2) := fun e1 e2 => by
  unfold C1Rel
  rcases e1 with a | d | _ <;> rcases e2 with b | x | _ <;>
    simp <;> infer_instance

/-- The identifiers assigned by `add` operations, in trace order. -/
def assignedIds (evs : List Event) : List Nat :=
  evs.filterMap (fun e => match e with | .assigned a => some a | _ => none)

theorem add_ok_parts (parse : String → Option PyDate) (s : TasksState)
    (now : PyDateTime) (name : String) (priority : Int) (due : Option String)
    (out : TasksState × Nat × Option Nat × String)
    (h : Tasks.add parse s now name priority due = .ok out) :
    out.1.counter = s.counter + 1 ∧ out.2.1 = s.counter ∧
    ∃ pd, out.1.tasks =
      s.tasks ++ [⟨now, none, pyStrip name, s.counter, priority, pd⟩] := by
  unfold Tasks.add at h
  split at h
  · exact absurd h (by simp)
  · split at h
    · exact absurd h (by simp)
    · rcases due with _ | d
      · simp only [Task.init, Except.ok.injEq] at h
        subst h
        exact ⟨rfl, rfl, none, rfl⟩
      · rcases hp : parse d with _ | pd <;> simp only [hp] at h
        · exact absurd h (by simp)
        · simp only [Task.init, Except.ok.injEq] at h
          subst h
          exact ⟨rfl, rfl, some pd, rfl⟩

theorem markFirst_map_id (n : Int) (now : PyDateTime) :
    ∀ ts ts', markFirst n now ts = some ts' →
      ts'.map Task.unique_id = ts.map Task.unique_id := by
  intro ts
  induction ts with
  | nil => intro ts' h; simp [markFirst] at h
  | cons t rest ih =>
    intro ts' h
    unfold markFirst at h
    split at h
    · cases h
      simp [Task.mark_complete]
    · rcases hm : markFirst n now rest with _ | ts'' <;> rw [hm] at h
      · simp at h
      · simp only [Option.map_some'] at h
        cases h
        simp [ih ts'' hm]

theorem deleteFirst_parts (n : Int) :
    ∀ ts i ts', deleteFirst n ts = some (i, ts') →
      (∃ t ∈ ts, t.unique_id = i) ∧ ∀ t' ∈ ts', t' ∈ ts := by
  intro ts
  induction ts with
  | nil => intro i ts' h; simp [deleteFirst] at h
  | cons t rest ih =>
    intro i ts' h
    unfold deleteFirst at h
    split at h
    · cases h
      exact ⟨⟨t, by simp⟩, fun t' ht' => by simp [ht']⟩
    · rcases hm : deleteFirst n rest with _ | ⟨i', ts''⟩ <;> rw [hm] at h
      · simp at h
      · simp only [Option.some.injEq, Prod.mk.injEq] at h
        obtain ⟨rfl, rfl⟩ := h
        obtain ⟨⟨u, hu, hui⟩, hsub⟩ := ih _ _ hm
        refine ⟨⟨u, by simp [hu], hui⟩, ?_⟩
        intro t' ht'
        rcases List.mem_cons.mp ht' with h1 | h2
        · simp [h1]
        · simp [hsub t' h2]

theorem step_counter_mono (parse : String → Option PyDate) (s : TasksState)
    (op : Op) : s.counter ≤ (step parse s op).1.counter := by
  cases op with
  | add now name priority due =>
    simp only [step]
    rcases h : Tasks.add parse s now name priority due with e | out
    · simp
    · simp only []
      have := (add_ok_parts parse s now name priority due out h).1
      omega
  | done now id =>
    simp only [step]
    rcases h : markFirst id now s.tasks with _ | ts' <;> simp
  | delete id =>
    simp only [step]
    rcases h : deleteFirst id s.tasks with _ | ⟨i, ts'⟩ <;> simp
  | list => simp [step]
  | report => simp [step]
  | query text => simp [step]

theorem step_inv (parse : String → Option PyDate) (s : TasksState) (op : Op)
    (h : IdInv s) : IdInv (step parse s op).1 := by
  cases op with
  | add now name priority due =>
    simp only [step]
    rcases ha : Tasks.add parse s now name priority due with e | ⟨s', tid, r, pr⟩
    · exact h
    · simp only []
      obtain ⟨hc, -, pd, ht⟩ :=
        add_ok_parts parse s now name priority due (s', tid, r, pr) ha
      dsimp only at hc ht
      intro t htm
      rw [ht] at htm
      rcases List.mem_append.mp htm with h1 | h2
      · have := h t h1
        omega
      · simp at h2
        subst h2
        simp only [hc]
        exact Nat.lt_succ_self s.counter
  | done now id =>
    simp only [step]
    rcases hm : markFirst id now s.tasks with _ | ts'
    · exact h
    · intro t htm
      have hmap := markFirst_map_id id now s.tasks ts' hm
      have : t.unique_id ∈ ts'.map Task.unique_id := List.mem_map_of_mem _ htm
      rw [hmap] at this
      obtain ⟨u, hu, hui⟩ := List.mem_map.mp this
      simpa [← hui] using h u hu
  | delete id =>
    simp only [step]
    rcases hd : deleteFirst id s.tasks with _ | ⟨i, ts'⟩
    · exact h
    · intro t htm
      exact h t ((deleteFirst_parts id s.tasks i ts' hd).2 t htm)
  | list => exact h
  | report => exact h
  | query text => exact h

theorem step_event_bound (parse : String → Option PyDate) (s : TasksState)
    (op : Op) (h : IdInv s) :
    (∀ a, (step parse s op).2 = .assigned a →
      s.counter ≤ a ∧ a < (step parse s op).1.counter) ∧
    (∀ d, (step parse s op).2 = .deleted d →
      d < (step parse s op).1.counter) := by
  cases op with
  | add now name priority due =>
    simp only [step]
    rcases ha : Tasks.add parse s now name priority due with e | ⟨s', tid, r, pr⟩
    · simp
    · simp only []
      obtain ⟨hc, hid, -⟩ :=
        add_ok_parts parse s now name priority due (s', tid, r, pr) ha
      dsimp only at hc hid
      constructor
      · intro a hev
        cases hev
        omega
      · intro d hev
        cases hev
  | done now id =>
    simp only [step]
    rcases hm : markFirst id now s.tasks with _ | ts' <;> simp
  | delete id =>
    simp only [step]
    rcases hd : deleteFirst id s.tasks with _ | ⟨i, ts'⟩
    · simp
    · simp only []
      constructor
      · intro a hev
        cases hev
      · intro d hev
        cases hev
        obtain ⟨⟨u, hu, hui⟩, -⟩ := deleteFirst_parts id s.tasks i ts' hd
        simpa [hui] using h u hu
  | list => simp [step]
  | report => simp [step]
  | query text => simp [step]

theorem trace_assigned_lb (parse : String → Option PyDate) (ops : List Op) :
    ∀ s, ∀ e ∈ runTrace parse s ops, ∀ a, e = .assigned a →
      s.counter ≤ a := by
  induction ops with
  | nil => intro s e he; simp [runTrace] at he
  | cons op ops ih =>
    intro s e he a hea
    subst hea
    rcases List.mem_cons.mp he with h1 | h2
    · cases op with
      | add now name priority due =>
        simp only [step] at h1
        rcases ha : Tasks.add parse s now name priority due with e | out <;>
          rw [ha] at h1
        · simp at h1
        · simp only [] at h1
          cases h1
          exact le_of_eq
            (add_ok_parts parse s now name priority due out ha).2.1.symm
      | done now id =>
        simp only [step] at h1
        rcases hm : markFirst id now s.tasks with _ | ts' <;>
          rw [hm] at h1 <;> simp at h1
      | delete id =>
        simp only [step] at h1
        rcases hd : deleteFirst id s.tasks with _ | ⟨i, ts'⟩ <;>
          rw [hd] at h1 <;> simp at h1
      | list => simp [step] at h1
      | report => simp [step] at h1
      | query text => simp [step] at h1
    · exact le_trans (step_counter_mono parse s op)
        (ih (step parse s op).1 _ h2 a rfl)

/-- A concrete stand-in for `strptime` that accepts nothing; used only to
instantiate theorems at concrete inputs. -/
def noParse : String → Option PyDate := fun _ => none

/-- C1: over any sequence of operations (adds possibly interleaved with
deletes and the rest) run from a state whose tasks all sit below the
counter, the event trace is pairwise ordered by `C1Rel`: identifiers
assigned by `add` are strictly increasing in assignment order (hence
pairwise unique), and every identifier removed by a `delete` is strictly
below every identifier assigned later, so a deleted identifier is never
assigned again. -/
theorem add_ids_unique_increasing_no_reuse
    (parse : String → Option PyDate) (s : TasksState) (ops : List Op)
    (h : IdInv s) :
    (runTrace parse s ops).Pairwise C1Rel ∧
    (assignedIds (runTrace parse s ops)).Pairwise (· < ·) := by
  have main : ∀ ops s, IdInv s → (runTrace parse s ops).Pairwise C1Rel := by
    intro ops
    induction ops with
    | nil => intro s hs; simp [runTrace]
    | cons op ops ih =>
      intro s hs
      simp only [runTrace]
      refine List.Pairwise.cons ?_ (ih _ (step_inv parse s op hs))
      intro e' he'
      rcases e2 : (step parse s op).2 with a | d | _
      · rcases e' with b | x | _
        · have hub := ((step_event_bound parse s op hs).1 a e2).2
          have hlb := trace_assigned_lb parse ops (step parse s op).1 _ he' b rfl
          exact lt_of_lt_of_le hub hlb
        · trivial
        · trivial
      · rcases e' with b | x | _
        · have hub := (step_event_bound parse s op hs).2 d e2
          have hlb := trace_assigned_lb parse ops (step parse s op).1 _ he' b rfl
          exact lt_of_lt_of_le hub hlb
        · trivial
        · trivial
      · rcases e' with b | x | _ <;> trivial
  have hp := main ops s h
  refine ⟨hp, List.Pairwise.filterMap _ ?_ hp⟩
  intro e1 e2 hrel b hb b' hb'
  rcases e1 with a1 | d1 | _ <;> rcases e2 with a2 | d2 | _ <;>
    simp_all [C1Rel]

/-- Witness for C1 at a concrete trace: add, delete the task, add again. -/
theorem add_ids_unique_increasing_no_reuse_witness :
    IdInv ⟨[], 1⟩ ∧
    ((runTrace noParse ⟨[], 1⟩
        [Op.add ⟨0, 0⟩ "a" 1 none, Op.delete 1,
          Op.add ⟨0, 1⟩ "b" 2 none]).Pairwise C1Rel ∧
      (assignedIds (runTrace noParse ⟨[], 1⟩
        [Op.add ⟨0, 0⟩ "a" 1 none, Op.delete 1,
          Op.add ⟨0, 1⟩ "b" 2 none])).Pairwise (· < ·)) :=
  ⟨by decide,
    add_ids_unique_increasing_no_reuse noParse ⟨[], 1⟩
      [Op.add ⟨0, 0⟩ "a" 1 none, Op.delete 1, Op.add ⟨0, 1⟩ "b" 2 none]
      (by decide)⟩

/-- The spec's sorting example, task A: due 2024-01-10, priority 1. -/
def exA : Task := ⟨⟨10, 0⟩, none, "A", 1, 1, some ⟨2024, 1, 10⟩⟩

/-- The spec's sorting example, task B: due 2024-01-10, priority 3. -/
def exB : Task := ⟨⟨11, 0⟩, none, "B", 2, 3, some ⟨2024, 1, 10⟩⟩

/-- The spec's sorting example, task C: no due date, priority 3. -/
def exC : Task := ⟨⟨12, 0⟩, none, "C", 3, 3, none⟩

/-- The spec's sorting example, task D: due 2024-01-05, priority 2. -/
def exD : Task := ⟨⟨13, 0⟩, none, "D", 4, 2, some ⟨2024, 1, 5⟩⟩

/-- A no-due-date, priority-1 task used to exhibit a sort tie. -/
def exE : Task := ⟨⟨14, 0⟩, none, "E", 5, 1, none⟩

/-- A second no-due-date, priority-1 task tied with `exE`. -/
def exF : Task := ⟨⟨15, 0⟩, none, "F", 6, 1, none⟩

/-- C2: the shared sort of list/report/query permutes its input and orders
it exactly as the spec describes (`specLe`): due-dated tasks before
due-date-less ones, ascending by due-date, descending by priority within an
equal-due-date group; remaining ties keep original collection order because
the sort is stable; and on the spec's example inserted as A, B, C, D the
output order is D, B, A, C. -/
theorem sort_order_spec :
    (∀ ts : List Task,
      List.Perm (sortTasks ts) ts ∧
      (sortTasks ts).Pairwise specLe ∧
      ∀ a b : Task, sortRel a b → sortRel b a → List.Sublist [a, b] ts →
        List.Sublist [a, b] (sortTasks ts)) ∧
    sortTasks [exA, exB, exC, exD] = [exD, exB, exA, exC] := by
  constructor
  · intro ts
    refine ⟨List.perm_insertionSort sortRel ts, ?_, ?_⟩
    · exact (List.sorted_insertionSort sortRel ts).imp
        (fun hab => (keyLe_iff_specLe _ _).mp hab)
    · intro a b hab hba hsub
      exact List.pair_sublist_insertionSort hab hsub
  · decide

/-- Witness for C2's stability clause at a concrete tied pair. -/
theorem sort_order_spec_witness :
    sortRel exE exF ∧ sortRel exF exE ∧
    List.Sublist [exE, exF] (sortTasks [exE, exF]) :=
  ⟨by decide, by decide,
    (sort_order_spec.1 [exE, exF]).2.2 exE exF (by decide) (by decide)
      (List.Sublist.refl _)⟩

theorem markFirst_eq_none_iff (n : Int) (now : PyDateTime) (ts : List Task) :
    markFirst n now ts = none ↔ ∀ t ∈ ts, (t.unique_id : Int) ≠ n := by
  induction ts with
  | nil => simp [markFirst]
  | cons t rest ih =>
    unfold markFirst
    split
    · simp_all
    · rcases hm : markFirst n now rest with _ | ts'' <;> simp_all

theorem markFirst_parts (n : Int) (now : PyDateTime) :
    ∀ ts ts', markFirst n now ts = some ts' →
      ∃ pre u post, ts = pre ++ u :: post ∧
        (∀ w ∈ pre, (w.unique_id : Int) ≠ n) ∧ (u.unique_id : Int) = n ∧
        ts' = pre ++ u.mark_complete now :: post := by
  intro ts
  induction ts with
  | nil => intro ts' h; simp [markFirst] at h
  | cons t rest ih =>
    intro ts' h
    unfold markFirst at h
    split at h
    · cases h
      exact ⟨[], t, rest, by simp, by simp, by assumption, by simp⟩
    · rcases hm : markFirst n now rest with _ | ts'' <;> rw [hm] at h
      · simp at h
      · simp only [Option.map_some'] at h
        cases h
        obtain ⟨pre, u, post, hts, hpre, hu, hts'⟩ := ih _ hm
        refine ⟨t :: pre, u, post, by simp [hts], ?_, hu, by simp [hts']⟩
        intro w hw
        rcases List.mem_cons.mp hw with h1 | h2
        · subst h1; assumption
        · exact hpre w h2

/-- Whether an `Except` result is an error (a raised `ValueError`). -/
def isError {ε α : Type} : Except ε α → Bool
  | .error _ => true
  | .ok _ => false

/-- Task with identifier 3 for the spec's load example. -/
def exT3 : Task := ⟨⟨0, 0⟩, none, "t3", 3, 1, none⟩

/-- Task with identifier 7 for the spec's load example. -/
def exT7 : Task := ⟨⟨0, 1⟩, none, "t7", 7, 1, none⟩

/-- Task with identifier 2 for the spec's load example. -/
def exT2 : Task := ⟨⟨0, 2⟩, none, "t2", 2, 1, none⟩

/-- C3: loading a non-empty persisted collection succeeds and restores the
counter to one greater than the maximum identifier present, and any
successful `add` from the loaded state assigns exactly that identifier. -/
theorem load_restores_counter (counter : Nat) (ts : List Task)
    (h : ts ≠ []) :
    Tasks.loadTasks counter ts = .ok ⟨ts, maxId ts + 1⟩ ∧
    ∀ parse now name priority due s' tid r pr,
      Tasks.add parse ⟨ts, maxId ts + 1⟩ now name priority due =
        .ok (s', tid, r, pr) → tid = maxId ts + 1 := by
  constructor
  · have hne : ts.isEmpty = false := by
      cases ts with
      | nil => exact absurd rfl h
      | cons a l => rfl
    unfold Tasks.loadTasks Task.set_id_counter
    rw [hne]
    simp
  · intro parse now name priority due s' tid r pr ha
    exact (add_ok_parts parse ⟨ts, maxId ts + 1⟩ now name priority due
      (s', tid, r, pr) ha).2.1

/-- Witness for C3 on the spec's collection with identifiers {3, 7, 2}:
the counter is restored to 8 and the next `add` assigns identifier 8. -/
theorem load_restores_counter_witness :
    ([exT3, exT7, exT2] ≠ ([] : List Task)) ∧
    Tasks.loadTasks 1 [exT3, exT7, exT2] = .ok ⟨[exT3, exT7, exT2], 8⟩ ∧
    (8 : Nat) = maxId [exT3, exT7, exT2] + 1 :=
  ⟨by decide, (load_restores_counter 1 [exT3, exT7, exT2] (by decide)).1,
    (load_restores_counter 1 [exT3, exT7, exT2] (by decide)).2 noParse
      ⟨1, 0⟩ "x" 1 none
      ⟨[exT3, exT7, exT2, ⟨⟨1, 0⟩, none, "x", 8, 1, none⟩], 9⟩ 8 none
      "Created Task 0008" rfl⟩

/-- C4 (code bug): a valid `add` validates, constructs the task with the
freshly allocated identifier, appends it and prints the confirmation — but
the Python function body has no `return` statement, so its return value
(third component of the payload) is `none` (Python `None`), not the
identifier its own docstring promises. -/
theorem add_appends_but_returns_none :
    Tasks.add noParse ⟨[], 1⟩ ⟨0, 0⟩ "milk" 1 none =
      .ok (⟨[⟨⟨0, 0⟩, none, "milk", 1, 1, none⟩], 2⟩, 1, none,
        "Created Task 0001") := rfl

/-- A task that is already completed (at time ⟨0, 5⟩), identifier 1. -/
def exG : Task := ⟨⟨0, 0⟩, some ⟨0, 5⟩, "g", 1, 1, none⟩

/-- C5 counterexample: running `done` again on the already-completed task
`exG` overwrites its completed-at with the new current time, so a subsequent
operation does change an already-set completed-at value. -/
theorem done_overwrites_completed_counterexample :
    exG.completed = some ⟨0, 5⟩ ∧
    (step noParse ⟨[exG], 2⟩ (Op.done ⟨0, 9⟩ 1)).1.tasks.map Task.completed =
      [some ⟨0, 9⟩] ∧
    (some (⟨0, 9⟩ : PyDateTime) ≠ some (⟨0, 5⟩ : PyDateTime)) := by decide

/-- C5 (amended): in a store with pairwise-distinct identifiers all below
the counter, once a task's completed-at is set it is never cleared by any
subsequent operation, and it is changed only by a `done` (complete) on that
same identifier, which overwrites it with that call's current time. -/
theorem completed_never_cleared (parse : String → Option PyDate)
    (s : TasksState) (op : Op) (t : Task)
    (hnodup : (s.tasks.map Task.unique_id).Nodup) (hinv : IdInv s)
    (hmem : t ∈ s.tasks) (hc : t.completed.isSome = true) (t' : Task)
    (hmem' : t' ∈ (step parse s op).1.tasks)
    (hid : t'.unique_id = t.unique_id) :
    t'.completed.isSome = true ∧
    (t'.completed = t.completed ∨
      ∃ now, op = Op.done now (t.unique_id : Int) ∧
        t'.completed = some now) := by
  have heq : ∀ u ∈ s.tasks, u.unique_id = t.unique_id → u = t :=
    fun u hu hid' => List.inj_on_of_nodup_map hnodup hu hmem hid'
  cases op with
  | add now name priority due =>
    revert hmem'
    simp only [step]
    rcases ha : Tasks.add parse s now name priority due with e | ⟨s', tid, r, pr⟩
    · intro hmem'
      have ht' := heq t' hmem' hid
      exact ⟨by rw [ht']; exact hc, Or.inl (by rw [ht'])⟩
    · intro hmem'
      obtain ⟨hcnt, -, pd, hts⟩ :=
        add_ok_parts parse s now name priority due (s', tid, r, pr) ha
      dsimp only at hts
      rw [hts] at hmem'
      rcases List.mem_append.mp hmem' with h1 | h2
      · have ht' := heq t' h1 hid
        exact ⟨by rw [ht']; exact hc, Or.inl (by rw [ht'])⟩
      · exfalso
        simp only [List.mem_singleton] at h2
        have hlt := hinv t hmem
        rw [h2] at hid
        simp only [] at hid
        omega
  | done now j =>
    revert hmem'
    simp only [step]
    rcases hmk : markFirst j now s.tasks with _ | ts'
    · intro hmem'
      have ht' := heq t' hmem' hid
      exact ⟨by rw [ht']; exact hc, Or.inl (by rw [ht'])⟩
    · intro hmem'
      obtain ⟨pre, u, post, hts, hpre, hu, hts'⟩ :=
        markFirst_parts j now s.tasks ts' hmk
      rw [hts'] at hmem'
      rcases List.mem_append.mp hmem' with h1 | h2
      · have h1' : t' ∈ s.tasks := by
          rw [hts]; exact List.mem_append_left _ h1
        have ht' := heq t' h1' hid
        exact ⟨by rw [ht']; exact hc, Or.inl (by rw [ht'])⟩
      · rcases List.mem_cons.mp h2 with h3 | h4
        · have humem : u ∈ s.tasks := by
            rw [hts]
            exact List.mem_append_right _ (List.mem_cons_self _ _)
          have huid : u.unique_id = t.unique_id := by
            have hpres : t'.unique_id = u.unique_id := by rw [h3]; rfl
            omega
          have hut := heq u humem huid
          subst hut
          refine ⟨by rw [h3]; rfl, Or.inr ⟨now, ?_, by rw [h3]; rfl⟩⟩
          rw [← hu]
        · have h4' : t' ∈ s.tasks := by
            rw [hts]
            exact List.mem_append_right _ (List.mem_cons_of_mem _ h4)
          have ht' := heq t' h4' hid
          exact ⟨by rw [ht']; exact hc, Or.inl (by rw [ht'])⟩
  | delete j =>
    revert hmem'
    simp only [step]
    rcases hd : deleteFirst j s.tasks with _ | ⟨i, ts'⟩
    · intro hmem'
      have ht' := heq t' hmem' hid
      exact ⟨by rw [ht']; exact hc, Or.inl (by rw [ht'])⟩
    · intro hmem'
      have ht' := heq t' ((deleteFirst_parts j s.tasks i ts' hd).2 t' hmem') hid
      exact ⟨by rw [ht']; exact hc, Or.inl (by rw [ht'])⟩
  | list =>
    have ht' := heq t' hmem' hid
    exact ⟨by rw [ht']; exact hc, Or.inl (by rw [ht'])⟩
  | report =>
    have ht' := heq t' hmem' hid
    exact ⟨by rw [ht']; exact hc, Or.inl (by rw [ht'])⟩
  | query text =>
    have ht' := heq t' hmem' hid
    exact ⟨by rw [ht']; exact hc, Or.inl (by rw [ht'])⟩

/-- Witness for C5 (amended) at the overwrite case itself: re-completing
`exG` yields a still-set completed-at explained by the `done` clause. -/
theorem completed_never_cleared_witness :
    (Task.mark_complete exG ⟨0, 9⟩).completed.isSome = true ∧
    ((Task.mark_complete exG ⟨0, 9⟩).completed = exG.completed ∨
      ∃ now, Op.done ⟨0, 9⟩ 1 = Op.done now (exG.unique_id : Int) ∧
        (Task.mark_complete exG ⟨0, 9⟩).completed = some now) :=
  completed_never_cleared noParse ⟨[exG], 2⟩ (Op.done ⟨0, 9⟩ 1) exG
    (by decide) (by decide) (by decide) (by decide)
    (Task.mark_complete exG ⟨0, 9⟩) (by decide) (by decide)

/-- C6: `done` (`complete`) fails exactly when its argument is not an
integer or no task carries that identifier; whenever it fails the
collection is unchanged; and when it succeeds some task in the resulting
collection carries the identifier with completed-at set to the current
time. -/
theorem done_error_iff_and_atomic (v : PyVal) (ts : List Task)
    (now : PyDateTime) :
    (isError (Tasks.done v ts now).1 = true ↔
      v = PyVal.nonInt ∨
        ∃ n, v = PyVal.int n ∧ ∀ t ∈ ts, (t.unique_id : Int) ≠ n) ∧
    (isError (Tasks.done v ts now).1 = true →
      (Tasks.done v ts now).2 = ts) ∧
    (∀ n, v = PyVal.int n → isError (Tasks.done v ts now).1 = false →
      ∃ t' ∈ (Tasks.done v ts now).2,
        (t'.unique_id : Int) = n ∧ t'.completed = some now) := by
  cases v with
  | nonInt =>
    refine ⟨iff_of_true rfl (Or.inl rfl), fun _ => rfl, ?_⟩
    intro n hn
    exact absurd hn (by simp)
  | int n0 =>
    rcases hmk : markFirst n0 now ts with _ | ts'
    · have herr : Tasks.done (.int n0) ts now =
          (.error ("Task ID " ++ toString n0 ++ " not found"), ts) := by
        simp [Tasks.done, hmk]
      refine ⟨iff_of_true (by rw [herr]; rfl)
        (Or.inr ⟨n0, rfl, (markFirst_eq_none_iff n0 now ts).mp hmk⟩),
        fun _ => by rw [herr], ?_⟩
      intro n hn hfalse
      rw [herr] at hfalse
      exact absurd hfalse (by simp [isError])
    · have hok : Tasks.done (.int n0) ts now =
          (.ok ("Completed task " ++ formatId n0.toNat), ts') := by
        simp [Tasks.done, hmk]
      obtain ⟨pre, u, post, hts, hpre, hu, hts'⟩ :=
        markFirst_parts n0 now ts ts' hmk
      have humem : u ∈ ts := by
        rw [hts]
        exact List.mem_append_right _ (List.mem_cons_self _ _)
      refine ⟨iff_of_false (by rw [hok]; simp [isError]) ?_, ?_, ?_⟩
      · rintro (h | ⟨n, hn, hall⟩)
        · exact PyVal.noConfusion h
        · injection hn with hnn
          exact hall u humem (by rw [hu, hnn])
      · intro hfalse
        rw [hok] at hfalse
        exact absurd hfalse (by simp [isError])
      · intro n hn hfalse
        injection hn with hnn
        rw [hok]
        refine ⟨u.mark_complete now, ?_, ?_, rfl⟩
        · rw [hts']
          exact List.mem_append_right _ (List.mem_cons_self _ _)
        · show ((u.mark_complete now).unique_id : Int) = n
          rw [show (u.mark_complete now).unique_id = u.unique_id from rfl,
            hu, hnn]

/-- Witness for C6: completing identifier 2 in a store holding only
identifier 1 fails and leaves the collection untouched. -/
theorem done_error_iff_and_atomic_witness :
    isError (Tasks.done (PyVal.int 2) [exG] ⟨0, 9⟩).1 = true ∧
    (Tasks.done (PyVal.int 2) [exG] ⟨0, 9⟩).2 = [exG] :=
  ⟨by decide,
    (done_error_iff_and_atomic (PyVal.int 2) [exG] ⟨0, 9⟩).2.1 (by decide)⟩

/-- A trivial stand-in for `strftime`, used to instantiate theorems. -/
def noFmt : PyDateTime → String := fun _ => ""

/-- Incomplete task named "Buy Bread" from the spec's query example. -/
def exBread : Task := ⟨⟨0, 0⟩, none, "Buy Bread", 11, 1, none⟩

/-- Incomplete task named "almond milk latte" from the spec's query
example. -/
def exMilk : Task := ⟨⟨0, 1⟩, none, "almond milk latte", 12, 1, none⟩

/-- Incomplete task named "eggs" from the spec's query example. -/
def exEggs : Task := ⟨⟨0, 2⟩, none, "eggs", 13, 1, none⟩

/-- A completed task whose name matches "bread"; query must exclude it. -/
def exDoneBread : Task := ⟨⟨0, 3⟩, some ⟨0, 4⟩, "bread sticks", 14, 1, none⟩

/-- An incomplete task whose name is matched by two different terms. -/
def exShake : Task := ⟨⟨0, 5⟩, none, "milk shake", 15, 1, none⟩

/-- C7: `query` keeps exactly the incomplete tasks for which some
whitespace-split term of the search text occurs case-insensitively in the
name; an empty term list selects nothing; and on the spec's example,
`query("bread milk")` selects "Buy Bread" and "almond milk latte" but not
"eggs" nor the completed "bread sticks". -/
theorem query_selects_matching_incomplete :
    (∀ text ts (t : Task),
      t ∈ Tasks.querySelect text ts ↔
        t ∈ ts ∧ t.completed = none ∧
          ∃ term ∈ pySplit text, ciMatch term t.name = true) ∧
    (∀ text ts, pySplit text = [] → Tasks.querySelect text ts = []) ∧
    Tasks.querySelect "bread milk" [exBread, exMilk, exEggs, exDoneBread] =
      [exBread, exMilk] := by
  refine ⟨?_, ?_, by decide⟩
  · intro text ts t
    simp [Tasks.querySelect, List.mem_filter, List.any_eq_true,
      Option.isNone_iff_eq_none, and_assoc]
    tauto
  · intro text ts h
    simp [Tasks.querySelect, h]

/-- Witness for C7's empty-term clause: a blank search text selects no
task, not even an incomplete matching-everything one. -/
theorem query_selects_matching_incomplete_witness :
    pySplit "   " = [] ∧ Tasks.querySelect "   " [exEggs] = [] :=
  ⟨by decide, query_selects_matching_incomplete.2.1 "   " [exEggs] (by decide)⟩

/-- C8: `list` on a store whose tasks are all completed prints the distinct
"No incomplete tasks." message, `report` on an empty store prints the
generic "No tasks found." message, and the two messages differ. -/
theorem empty_messages_distinct :
    (∀ now fmt ts, (∀ t ∈ ts, t.completed ≠ none) →
      Tasks.list now fmt ts = ["No incomplete tasks."]) ∧
    (∀ now fmt, Tasks.report now fmt [] = ["No tasks found."]) ∧
    "No incomplete tasks." ≠ "No tasks found." := by
  refine ⟨?_, fun now fmt => rfl, by decide⟩
  intro now fmt ts h
  have hnil : ts.filter (fun t => t.completed.isNone) = [] := by
    rw [List.filter_eq_nil_iff]
    intro t ht
    simpa [Option.isNone_iff_eq_none] using h t ht
  simp [Tasks.list, hnil]

/-- Witness for C8 on a one-task, all-completed store. -/
theorem empty_messages_distinct_witness :
    (∀ t ∈ [exDoneBread], t.completed ≠ none) ∧
    Tasks.list ⟨0, 0⟩ noFmt [exDoneBread] = ["No incomplete tasks."] :=
  ⟨by decide, empty_messages_distinct.1 ⟨0, 0⟩ noFmt [exDoneBread] (by decide)⟩

/-- C9: the long-form (report) name is shown unchanged when its length is
at most 19 and as its first 17 characters plus the ".." marker when longer;
the short-form (list/query) row always ends with the full, untruncated
name. -/
theorem report_truncates_list_does_not :
    (∀ name : String, name.length ≤ 19 → reportName name = name) ∧
    (∀ name : String, name.length > 19 →
      reportName name = name.take 17 ++ "..") ∧
    (∀ now t, List.IsSuffix t.name.toList (listRow now t).toList) := by
  refine ⟨?_, ?_, ?_⟩
  · intro name h
    rw [reportName, if_neg (by omega)]
  · intro name h
    rw [reportName, if_pos h]
  · intro now t
    exact ⟨(padR (formatId t.unique_id) 5 ++ " " ++ padR (ageStr now t) 5 ++
      " " ++ padR (fmtDue t.due_date) 11 ++ " " ++
      padR (toString t.priority) 10 ++ " ").toList, rfl⟩

/-- Witness for C9 at a 21-character and a 19-character name. -/
theorem report_truncates_list_does_not_witness :
    ("a much too long name!".length > 19 ∧
      reportName "a much too long name!" = "a much too long n" ++ "..") ∧
    ("exactly nineteen ch".length ≤ 19 ∧
      reportName "exactly nineteen ch" = "exactly nineteen ch") :=
  ⟨⟨by decide, (report_truncates_list_does_not.2.1 "a much too long name!"
      (by decide)).trans (by decide)⟩,
    ⟨by decide, report_truncates_list_does_not.1 "exactly nineteen ch"
      (by decide)⟩⟩

/-- C10: `query` selects each task at most once even when several search
terms match its name: the selection's multiplicities are bounded by the
store's, and a duplicate-free store yields a duplicate-free selection. -/
theorem query_selects_each_task_at_most_once (text : String)
    (ts : List Task) :
    (∀ t, (Tasks.querySelect text ts).count t ≤ ts.count t) ∧
    (ts.Nodup → (Tasks.querySelect text ts).Nodup) := by
  have hsub : List.Sublist (Tasks.querySelect text ts) ts := by
    unfold Tasks.querySelect
    exact (List.filter_sublist _).trans (List.filter_sublist _)
  exact ⟨fun t => hsub.count_le t, fun h => List.Nodup.sublist hsub h⟩

/-- Witness for C10: both terms of "milk shake" match the single task, yet
it is selected once. -/
theorem query_selects_each_task_at_most_once_witness :
    (Tasks.querySelect "milk shake" [exShake]).count exShake ≤
      [exShake].count exShake ∧
    ([exShake].Nodup ∧ (Tasks.querySelect "milk shake" [exShake]).Nodup) :=
  ⟨(query_selects_each_task_at_most_once "milk shake" [exShake]).1 exShake,
    by decide,
    (query_selects_each_task_at_most_once "milk shake" [exShake]).2
      (by decide)⟩

end TaskTracker
